import Mathlib

/-!
Verification of the dual-protocol port multiplexer of the TobyTodo server
(`main.go`): the peekable buffered connection, the first-byte protocol
classifier, the HTTP→HTTPS redirect responder, the channel-backed listener
and the accept/dispatch loop, together with startup flag validation.

Bytes are modelled as `Nat` (with values < 256 where relevant), byte streams
as `List Nat`, and Go strings as Lean `String`.
-/

namespace TobyTodo

/-- Model of `BufferedConn` (`main.go`): a `net.Conn` wrapped in a
`bufio.Reader`.  `buf` holds bytes already pulled from the underlying
connection but not yet consumed by `Read`; `conn` holds the bytes still
waiting in the underlying connection (the suffix of the client's stream
not yet pulled into the buffer). -/
structure BufferedConn where
  buf : List Nat
  conn : List Nat
deriving DecidableEq

/-- Model of `NewBufferedConn`: fresh wrapper, empty buffer, the whole
client byte stream still in the underlying connection. -/
def NewBufferedConn (sent : List Nat) : BufferedConn :=
  ⟨[], sent⟩

/-- The buffer-filling step of `bufio.Reader.Peek n`: pull bytes from the
underlying connection into the buffer until it holds at least `n` bytes or
the connection is exhausted. -/
def BufferedConn.fill (bc : BufferedConn) (n : Nat) : BufferedConn :=
  ⟨bc.buf ++ bc.conn.take (n - bc.buf.length),
   bc.conn.drop (n - bc.buf.length)⟩

/-- Model of `BufferedConn.Peek` = `bufio.Reader.Peek n`: fill the buffer,
then return the first `n` buffered bytes without consuming them.  Returns
`none` (an error) when fewer than `n` bytes are available in total. -/
def BufferedConn.peek (bc : BufferedConn) (n : Nat) :
    Option (List Nat) × BufferedConn :=
  if n ≤ (bc.fill n).buf.length then
    (some ((bc.fill n).buf.take n), bc.fill n)
  else
    (none, bc.fill n)

/-- Model of `BufferedConn.Read` = `bufio.Reader.Read`: when the buffer is
nonempty, serve (up to `k`) bytes from the buffer without touching the
underlying connection; when it is empty, read directly from the underlying
connection. -/
def BufferedConn.read (bc : BufferedConn) (k : Nat) :
    List Nat × BufferedConn :=
  match bc.buf with
  | [] => (bc.conn.take k, ⟨[], bc.conn.drop k⟩)
  | b :: rest =>
      ((b :: rest).take k, ⟨(b :: rest).drop k, bc.conn⟩)

/-- The byte sequence a downstream consumer of the wrapped connection will
observe from now on: buffered bytes first, then the rest of the underlying
stream. -/
def BufferedConn.delivered (bc : BufferedConn) : List Nat :=
  bc.buf ++ bc.conn

theorem fill_delivered (bc : BufferedConn) (n : Nat) :
    (bc.fill n).delivered = bc.delivered := by
  simp [BufferedConn.fill, BufferedConn.delivered, List.append_assoc,
    List.take_append_drop]

theorem peek_delivered (bc : BufferedConn) (n : Nat) :
    ((bc.peek n).2).delivered = bc.delivered := by
  unfold BufferedConn.peek
  split <;> exact fill_delivered bc n

theorem peek_some_eq_take {bc : BufferedConn} {n : Nat} {out : List Nat}
    {bc' : BufferedConn} (h : bc.peek n = (some out, bc')) :
    out = bc.delivered.take n ∧ bc' = bc.fill n ∧ n ≤ bc'.buf.length := by
  unfold BufferedConn.peek at h
  split at h
  · rename_i hle
    injection h with h1 h2
    injection h1 with h1
    subst h2
    refine ⟨?_, rfl, hle⟩
    have hpre : bc.delivered = (bc.fill n).buf ++ (bc.fill n).conn := by
      simpa [BufferedConn.delivered] using (fill_delivered bc n).symm
    rw [hpre, List.take_append_of_le_length hle]
    exact h1.symm
  · simp at h

theorem read_delivered (bc : BufferedConn) (k : Nat) :
    (bc.read k).1 ++ ((bc.read k).2).delivered = bc.delivered := by
  unfold BufferedConn.read
  match h : bc.buf with
  | [] => simp [BufferedConn.delivered, h, List.take_append_drop]
  | b :: rest =>
      simp only [BufferedConn.delivered, h]
      rw [← List.append_assoc, List.take_append_drop]

/-- C2: the `BufferedConn` wrapper is a faithful non-destructive-lookahead
layer.  (1) a fresh wrapper delivers exactly the client's stream;
(2) `Peek` never advances the delivered stream; (3) a successful
`Peek n` returns exactly the next `n` bytes of the delivered stream;
(4) after a successful `Peek n`, a `Peek m` with `m ≤ n` succeeds and
returns the same first `m` bytes (idempotence); (5) every `Read` hands
out a prefix of the delivered stream (buffered/peeked bytes first, then
fresh bytes) and leaves exactly the remainder — so the concatenation of
all reads reproduces the client's bytes in order, with no loss,
duplication, or reordering. -/
theorem bufferedConn_peek_read_faithful :
    (∀ sent : List Nat, (NewBufferedConn sent).delivered = sent) ∧
    (∀ (bc : BufferedConn) (n : Nat),
      ((bc.peek n).2).delivered = bc.delivered) ∧
    (∀ (bc : BufferedConn) (n : Nat) (out : List Nat) (bc' : BufferedConn),
      bc.peek n = (some out, bc') → out = bc.delivered.take n) ∧
    (∀ (bc : BufferedConn) (n m : Nat) (out : List Nat) (bc' : BufferedConn),
      m ≤ n → bc.peek n = (some out, bc') →
        (bc'.peek m).1 = some (out.take m)) ∧
    (∀ (bc : BufferedConn) (k : Nat),
      (bc.read k).1 ++ ((bc.read k).2).delivered = bc.delivered) := by
  refine ⟨?_, peek_delivered, ?_, ?_, read_delivered⟩
  · intro sent; simp [NewBufferedConn, BufferedConn.delivered]
  · intro bc n out bc' h; exact (peek_some_eq_take h).1
  · intro bc n m out bc' hmn h
    obtain ⟨hout, hbc, hlen⟩ := peek_some_eq_take h
    have hm : m ≤ bc'.buf.length := le_trans hmn hlen
    have hsub : m - bc'.buf.length = 0 := Nat.sub_eq_zero_of_le hm
    have hfill : bc'.fill m = bc' := by
      simp [BufferedConn.fill, hsub]
    unfold BufferedConn.peek
    rw [hfill, if_pos hm]
    have hpre : bc.delivered = bc'.buf ++ bc'.conn := by
      have hp := peek_delivered bc n
      rw [h] at hp
      simpa [BufferedConn.delivered] using hp.symm
    have h1 : bc'.buf.take m = bc.delivered.take m := by
      rw [hpre, List.take_append_of_le_length hm]
    have h2 : out.take m = bc.delivered.take m := by
      rw [hout, List.take_take, Nat.min_eq_left hmn]
    rw [h1, h2]

/-- Witness for C2 at a concrete stream: after `Peek 2` on the stream
`[22, 3, 1]`, a smaller `Peek 1` returns the same first byte. -/
theorem bufferedConn_peek_read_faithful_witness :
    ((BufferedConn.mk [22, 3] [1]).peek 1).1 = some ([22, 3].take 1) :=
  bufferedConn_peek_read_faithful.2.2.2.1
    (NewBufferedConn [22, 3, 1]) 2 1 [22, 3]
    ⟨[22, 3], [1]⟩ (by decide) (by decide)

/-! ## Per-connection classification task (`main.go`, accept loop goroutine) -/

/-- The action the per-connection goroutine in `main` takes after peeking:
send the wrapped connection into `tlsConnChan` (secure path), hand it to
`handleHTTPRedirect` (plaintext path), or — when the peek fails — close the
raw connection and return, writing nothing and retrying nothing. -/
inductive TaskAction where
  | enqueueSecure (bc : BufferedConn)
  | redirect (bc : BufferedConn)
  | closeOnly
deriving DecidableEq

def TaskAction.isEnqueue : TaskAction → Bool
  | .enqueueSecure _ => true
  | _ => false

def TaskAction.isRedirect : TaskAction → Bool
  | .redirect _ => true
  | _ => false

/-- Model of the per-connection goroutine body in `main`: wrap the raw
connection, `Peek(1)`; on error close and return; if the peeked byte is
`0x16` send the buffered connection to the TLS channel, otherwise run the
HTTP redirect handler on it. -/
def connTask (sent : List Nat) : TaskAction :=
  match (NewBufferedConn sent).peek 1 with
  | (some pfx, bc') =>
      if pfx.headD 0 = 0x16 then TaskAction.enqueueSecure bc'
      else TaskAction.redirect bc'
  | (none, _) => TaskAction.closeOnly

theorem connTask_cons (b : Nat) (rest : List Nat) :
    connTask (b :: rest) =
      if b = 0x16 then TaskAction.enqueueSecure ⟨[b], rest⟩
      else TaskAction.redirect ⟨[b], rest⟩ := by
  simp [connTask, NewBufferedConn, BufferedConn.peek, BufferedConn.fill]

/-- C1: for every connection whose one-byte peek succeeds (i.e. whose
stream is nonempty with first byte `b`): if `b = 0x16` the connection is
sent into the pending-connection channel and never given to the redirect
responder; for any other `b` it is given to the redirect responder and
never enqueued.  In both cases the handed-off wrapper still delivers the
entire client stream, first byte included. -/
theorem classify_first_byte_branches (b : Nat) (rest : List Nat) :
    (b = 0x16 →
      (connTask (b :: rest)).isEnqueue = true ∧
      (connTask (b :: rest)).isRedirect = false) ∧
    (b ≠ 0x16 →
      (connTask (b :: rest)).isRedirect = true ∧
      (connTask (b :: rest)).isEnqueue = false) ∧
    (∀ bc : BufferedConn,
      connTask (b :: rest) = TaskAction.enqueueSecure bc ∨
        connTask (b :: rest) = TaskAction.redirect bc →
      bc.delivered = b :: rest) := by
  refine ⟨?_, ?_, ?_⟩
  · intro hb
    rw [connTask_cons, if_pos hb]
    exact ⟨rfl, rfl⟩
  · intro hb
    rw [connTask_cons, if_neg hb]
    exact ⟨rfl, rfl⟩
  · intro bc hbc
    rw [connTask_cons] at hbc
    by_cases hb : b = 0x16
    · rw [if_pos hb] at hbc
      rcases hbc with h | h
      · injection h with h1
        rw [← h1]
        simp [BufferedConn.delivered]
      · exact absurd h (by simp)
    · rw [if_neg hb] at hbc
      rcases hbc with h | h
      · exact absurd h (by simp)
      · injection h with h1
        rw [← h1]
        simp [BufferedConn.delivered]

/-- Witness for C1: the TLS handshake first byte `0x16` is enqueued, the
ASCII byte of `G` (a plaintext `GET`) is redirected. -/
theorem classify_first_byte_branches_witness :
    (connTask [0x16, 3, 1]).isEnqueue = true ∧
      (connTask [71, 69, 84]).isRedirect = true :=
  ⟨((classify_first_byte_branches 0x16 [3, 1]).1 rfl).1,
   ((classify_first_byte_branches 71 [69, 84]).2.1 (by decide)).1⟩

/-- C4: when the classification peek fails (the peer yields no byte), the
per-connection task closes the connection and does nothing else: it is
neither enqueued onto the secure path nor handed to the redirect
responder. -/
theorem peek_failure_closes_silently (sent : List Nat)
    (h : ((NewBufferedConn sent).peek 1).1 = none) :
    connTask sent = TaskAction.closeOnly ∧
      (connTask sent).isEnqueue = false ∧
      (connTask sent).isRedirect = false := by
  have hc : connTask sent = TaskAction.closeOnly := by
    unfold connTask
    cases hpk : (NewBufferedConn sent).peek 1 with
    | mk o bc' =>
      cases o with
      | none => rfl
      | some v =>
        rw [hpk] at h
        simp at h
  exact ⟨hc, by rw [hc]; rfl, by rw [hc]; rfl⟩

/-- Witness for C4: the empty stream (peer closed before sending a byte). -/
theorem peek_failure_closes_silently_witness :
    connTask [] = TaskAction.closeOnly :=
  (peek_failure_closes_silently [] (by decide)).1

/-! ## Redirect responder (`handleHTTPRedirect` in `main.go`)

`handleHTTPRedirect` calls Go's `net/http.ReadRequest` and then formats a
fixed 301 response.  `ReadRequest` is standard-library code, modelled here
to the depth the responder exercises it.  The request line is split on
spaces into method (a nonempty RFC 7230 token, Go `validMethod`),
request-target, and HTTP version (`HTTP/major.minor`, Go
`parseHTTPVersion`).  The target may be origin-form (`/path?query`, with
the path's percent-escapes validated as `url.setPath` does), absolute-form
(`scheme://authority/path?query`), an opaque scheme URI (`scheme:opaque`),
or `*`.  Header lines run until the first blank line, and each must be
`name: value` with a nonempty token name (`textproto.ReadMIMEHeader`);
the name is matched case-insensitively and leading spaces and tabs of the
value are skipped.  `req.Host` is the target URL's authority when the
target has one, otherwise the verbatim `Host` header value, and empty when
neither exists — `ReadRequest` requires no Host header.
`req.URL.String()` reproduces all these target forms verbatim.  Not
modelled: the `CONNECT` authority-form special case, obsolete header line
folding, percent-unescaping or character validation inside the authority,
and bare-`LF` line endings (only `CR LF` is modelled). -/

/-- Optional whitespace: space or horizontal tab. -/
def isOWS (c : Char) : Bool :=
  c = ' ' || c = '\t'

/-- RFC 7230 `tchar` as in Go's `validHeaderFieldByte`/`validMethod`:
letters, digits and fifteen specials (apostrophe and backtick written by
code point). -/
def isTokenChar (c : Char) : Bool :=
  c.isAlphanum || c = '!' || c = '#' || c = '$' || c = '%' || c = '&' ||
    c.toNat = 39 || c = '*' || c = '+' || c = '-' || c = '.' || c = '^' ||
    c = '_' || c.toNat = 96 || c = '|' || c = '~'

/-- Go `validMethod`: a nonempty token. -/
def validMethod (m : List Char) : Bool :=
  !m.isEmpty && m.all isTokenChar

/-- Split a character list at its first colon: the part before and the
part after. -/
def cutColon : List Char → Option (List Char × List Char)
  | [] => none
  | ':' :: rest => some ([], rest)
  | c :: rest => (cutColon rest).map (fun p => (c :: p.1, p.2))

/-- Go `url.getScheme`: a letter followed by letters, digits, `+`, `-`
or `.`. -/
def validScheme : List Char → Bool
  | [] => false
  | c :: rest =>
      c.isAlpha &&
        rest.all (fun d => d.isAlphanum || d = '+' || d = '-' || d = '.')

/-- Go `url.ishex`: `0-9`, `a-f`, `A-F`. -/
def isHexDigitChar (c : Char) : Bool :=
  c.isDigit || (97 ≤ c.toNat && c.toNat ≤ 102) ||
    (65 ≤ c.toNat && c.toNat ≤ 70)

/-- Go `url.setPath` rejects invalid percent-escapes: every `%` must be
followed by two hex digits. -/
def validEscapes : List Char → Bool
  | [] => true
  | '%' :: a :: b :: rest =>
      isHexDigitChar a && isHexDigitChar b && validEscapes rest
  | '%' :: _ => false
  | _ :: rest => validEscapes rest

def digitsVal (l : List Char) : Nat :=
  l.foldl (fun acc c => acc * 10 + (c.toNat - 48)) 0

/-- Go `parseHTTPVersion`: `HTTP/major.minor`, decimal major and minor
each at most 1000000. -/
def validHTTPVersion (v : List Char) : Bool :=
  match v with
  | 'H' :: 'T' :: 'T' :: 'P' :: '/' :: rest =>
      match rest.dropWhile (fun c => c != '.') with
      | '.' :: minor =>
          let major := rest.takeWhile (fun c => c != '.')
          !major.isEmpty && major.all Char.isDigit &&
            !minor.isEmpty && minor.all Char.isDigit &&
            digitsVal major ≤ 1000000 && digitsVal minor ≤ 1000000
      | _ => false
  | _ => false

/-- The header section as `textproto.ReadMIMEHeader` accepts it: lines up
to the first blank line must each be `name: value` with a nonempty token
name; a missing blank line means the peer closed before the headers ended,
a read error.  In the `splitCRLF` chunking a genuine line always has a
successor chunk, so a final chunk — even an empty one, the artifact of the
stream ending in `CR LF` — is input cut short before the blank line. -/
def headerLinesValid : List (List Char) → Bool
  | [] => false
  | [_] => false
  | l :: ls =>
      if l = [] then true
      else
        match cutColon l with
        | some (name, _) =>
            !name.isEmpty && name.all isTokenChar && headerLinesValid ls
        | none => false

/-- The value of the first `Host` header among the lines before the
terminating blank line: the name is matched case-insensitively and
leading spaces and tabs of the value are skipped, the rest is verbatim. -/
def hostHeaderValue : List (List Char) → Option (List Char)
  | [] => none
  | l :: ls =>
      if l = [] then none
      else
        match cutColon l with
        | some (name, value) =>
            if name.map Char.toLower = "host".data then
              some (value.dropWhile isOWS)
            else hostHeaderValue ls
        | none => hostHeaderValue ls

/-- Split a character stream at every `CR LF` pair. -/
def splitCRLF : List Char → List (List Char)
  | [] => [[]]
  | '\r' :: '\n' :: rest => [] :: splitCRLF rest
  | c :: rest =>
    match splitCRLF rest with
    | [] => [[c]]
    | l :: ls => (c :: l) :: ls

/-- Split a character list at every space. -/
def splitSpace : List Char → List (List Char)
  | [] => [[]]
  | ' ' :: rest => [] :: splitSpace rest
  | c :: rest =>
    match splitSpace rest with
    | [] => [[c]]
    | l :: ls => (c :: l) :: ls

/-- Parse a request-target as Go's `url.ParseRequestURI` does, returning
`some` of the URL's authority (`req.URL.Host`) on success — empty for the
target forms that have none.  Origin-form validates the path's
percent-escapes; absolute-form splits the authority at the first `/` or
`?` after `scheme://` and validates the path's escapes; `scheme:opaque`
and `*` have no authority. -/
def parseTarget (t : List Char) : Option (List Char) :=
  match t with
  | '/' :: _ =>
      if validEscapes (t.takeWhile (fun c => c != '?')) then some []
      else none
  | _ =>
      if t = ['*'] then some []
      else
        match cutColon t with
        | none => none
        | some (scheme, rest) =>
            if validScheme scheme then
              match rest with
              | '/' :: '/' :: r =>
                  if validEscapes
                      ((r.dropWhile (fun c => c != '/' && c != '?')).takeWhile
                        (fun c => c != '?')) then
                    some (r.takeWhile (fun c => c != '/' && c != '?'))
                  else none
              | _ => some []
            else none

/-- Go `readRequest`'s host selection:
`req.Host = req.URL.Host; if req.Host == "" { req.Host =
req.Header.get("Host") }` — the target URL's authority when it has one,
the `Host` header value otherwise. -/
def chooseHost : List Char → List (List Char) → List Char
  | [], headers => (hostHeaderValue headers).getD []
  | urlHost, _ => urlHost

/-- The fields of a parsed Go `http.Request` that `handleHTTPRedirect`
uses: `req.Method`, `req.URL.String()` and `req.Host`. -/
structure Request where
  method : String
  urlString : String
  host : String
deriving DecidableEq

/-- Model of `http.ReadRequest` as exercised by `handleHTTPRedirect` (the
section comment states the modelled scope): validate and parse the request
line and the header section, then build `req.Method`, `req.URL.String()`
(the target, reproduced verbatim for the modelled forms) and `req.Host`. -/
def readRequest (s : String) : Option Request :=
  match splitCRLF s.data with
  | [] => none
  | firstLine :: rest =>
      if headerLinesValid rest then
        match splitSpace firstLine with
        | [m, target, proto] =>
            if validMethod m && validHTTPVersion proto then
              match parseTarget target with
              | some urlHost =>
                  some ⟨String.mk m, String.mk target,
                        String.mk (chooseHost urlHost rest)⟩
              | none => none
            else none
        | _ => none
      else none

/-- Model of `target := "https://" + host + req.URL.String()` in
`handleHTTPRedirect`. -/
def redirectTarget (req : Request) : String :=
  "https://" ++ req.host ++ req.urlString

/-- Model of the `fmt.Sprintf` response in `handleHTTPRedirect`:
`HTTP/1.1 301 Moved Permanently` with a `Location` header set to the
target and `Connection: close`. -/
def redirectResponse (req : Request) : String :=
  "HTTP/1.1 301 Moved Permanently\r\n" ++
    "Location: " ++ redirectTarget req ++ "\r\n" ++
    "Connection: close\r\n" ++
    "\r\n"

/-- Observable events on the plaintext connection inside
`handleHTTPRedirect`. -/
inductive ConnEvent where
  | wrote (s : String)
  | closed
deriving DecidableEq

def ConnEvent.isClose : ConnEvent → Bool
  | .closed => true
  | _ => false

/-- Model of `handleHTTPRedirect`: `defer conn.Close()`; read one request;
on parse error return (only the deferred close runs); otherwise write the
301 response and let the deferred close run.  Write errors are ignored by
the source, so the close is unconditional either way. -/
def handleHTTPRedirect (input httpsAddr : String) : List ConnEvent :=
  match readRequest input with
  | none => [ConnEvent.closed]
  | some req => [ConnEvent.wrote (redirectResponse req), ConnEvent.closed]

/-- C5 amended: on every path through `handleHTTPRedirect` the connection
is closed exactly once, and closing is the last event: a parse failure
(malformed input, premature close) closes with no response bytes written,
a parse success writes the response and then closes (the deferred close
runs whether or not the write succeeded).  A missing `Host` header is not
a parse failure — see the counterexample below. -/
theorem redirect_close_exactly_once (input addr : String) :
    (readRequest input = none →
      handleHTTPRedirect input addr = [ConnEvent.closed]) ∧
    (∀ req : Request, readRequest input = some req →
      handleHTTPRedirect input addr =
        [ConnEvent.wrote (redirectResponse req), ConnEvent.closed]) ∧
    (handleHTTPRedirect input addr).countP ConnEvent.isClose = 1 ∧
    (handleHTTPRedirect input addr).getLast? = some ConnEvent.closed := by
  unfold handleHTTPRedirect
  cases h : readRequest input with
  | none =>
    refine ⟨fun _ => rfl, ?_, by decide, rfl⟩
    intro req hr
    exact Option.noConfusion hr
  | some req =>
    refine ⟨fun hn => Option.noConfusion hn, fun r hr => ?_, ?_, rfl⟩
    · injection hr with h2
      subst h2
      rfl
    · simp [ConnEvent.isClose]

/-- Witness for C5: a malformed request (no header terminator) is answered
by a bare close. -/
theorem redirect_close_exactly_once_witness :
    handleHTTPRedirect "junk" ":443" = [ConnEvent.closed] :=
  (redirect_close_exactly_once "junk" ":443").1 (by decide)

/-- C5 counterexample: a request with no `Host` header is not a parse
failure — `http.ReadRequest` accepts it with `req.Host = ""` — and the
responder answers it with a `Location: https:///path` redirect instead of
closing without writing. -/
theorem no_host_request_gets_response :
    readRequest "GET /path HTTP/1.1\r\n\r\n" = some ⟨"GET", "/path", ""⟩ ∧
    handleHTTPRedirect "GET /path HTTP/1.1\r\n\r\n" ":443" =
      [ConnEvent.wrote
        "HTTP/1.1 301 Moved Permanently\r\nLocation: https:///path\r\nConnection: close\r\n\r\n",
       ConnEvent.closed] ∧
    handleHTTPRedirect "GET /path HTTP/1.1\r\n\r\n" ":443" ≠
      [ConnEvent.closed] := by
  decide

/-- C9 counterexample: for an absolute-form request-target the parser takes
`req.Host` from the target URL's authority and ignores the client's `Host`
header, so the responder substitutes the host: with target
`http://evil.com/x` and header `Host: good.com` the chosen host is
`evil.com`, not the header's `good.com`. -/
theorem absolute_target_overrides_host_header :
    hostHeaderValue ["Host: good.com".data, [], []] =
      some ("good.com".data) ∧
    readRequest "GET http://evil.com/x HTTP/1.1\r\nHost: good.com\r\n\r\n" =
      some ⟨"GET", "http://evil.com/x", "evil.com"⟩ ∧
    redirectTarget ⟨"GET", "http://evil.com/x", "evil.com"⟩ =
      "https://evil.comhttp://evil.com/x" ∧
    ("evil.com" : String) ≠ "good.com" := by
  decide

/-- C9 amended: for every parsed request whose request-target is
origin-form (starts with `/`) the target URL has no authority, so the host
of the `Location` target is the client-supplied `Host` header value copied
verbatim — ports included — between the fixed scheme and the verbatim
request-target; when the target does carry an authority that authority is
used instead of the `Host` header; and the responder never uses the
listener's own address. -/
theorem redirect_host_source :
    (∀ t : List Char, t.head? = some '/' →
      ∀ urlHost : List Char, parseTarget t = some urlHost → urlHost = []) ∧
    (∀ headers : List (List Char),
      chooseHost [] headers = (hostHeaderValue headers).getD []) ∧
    (∀ (urlHost : List Char) (headers : List (List Char)), urlHost ≠ [] →
      chooseHost urlHost headers = urlHost) ∧
    readRequest "GET /foo HTTP/1.1\r\nHost: example.com:8443\r\n\r\n" =
      some ⟨"GET", "/foo", "example.com:8443"⟩ ∧
    redirectTarget ⟨"GET", "/foo", "example.com:8443"⟩ =
      "https://example.com:8443/foo" ∧
    (∀ input a₁ a₂ : String,
      handleHTTPRedirect input a₁ = handleHTTPRedirect input a₂) := by
  refine ⟨?_, fun headers => rfl, ?_, by decide, by decide,
    fun input a₁ a₂ => rfl⟩
  · intro t ht urlHost hp
    cases t with
    | nil => exact Option.noConfusion ht
    | cons c t' =>
      have hc : c = '/' := by simpa using ht
      subst hc
      simp only [parseTarget] at hp
      split at hp
      · exact (Option.some.injEq .. ▸ hp).symm
      · exact Option.noConfusion hp
  · intro urlHost headers h
    cases urlHost with
    | nil => exact absurd rfl h
    | cons a l => rfl

/-- Witness for the amended C9: a nonempty URL authority is chosen over
whatever the headers say. -/
theorem redirect_host_source_witness :
    chooseHost ("evil.com".data) [] = "evil.com".data :=
  redirect_host_source.2.2.1 ("evil.com".data) [] (by decide)

structure ChanListener where
  AddrVal : String
  ConnChan : List Nat
  chanClosed : Bool
deriving DecidableEq

/-- Outcome of a receive-based `Accept` call: a connection, the
`listener closed` error, or blocking (no value available on a still-open
channel). -/
inductive AcceptResult where
  | conn (c : Nat)
  | err (msg : String)
  | blocks
deriving DecidableEq

/-- Model of `ChanListener.Accept`: `c, ok := <-l.ConnChan`; a pending
value is returned as a connection; on a closed and drained channel the
receive reports `ok = false` and `Accept` returns the
`fmt.Errorf("listener closed")` error; on an open empty channel the
receive blocks. -/
def ChanListener.Accept (l : ChanListener) : AcceptResult × ChanListener :=
  match l.ConnChan with
  | c :: rest => (AcceptResult.conn c, ⟨l.AddrVal, rest, l.chanClosed⟩)
  | [] =>
    if l.chanClosed then (AcceptResult.err "listener closed", l)
    else (AcceptResult.blocks, l)

/-- Model of `ChanListener.Close`: `return nil` — it neither closes
`ConnChan` nor records any state. -/
def ChanListener.Close (l : ChanListener) : Option String × ChanListener :=
  (none, l)

/-- Model of `ChanListener.Addr`. -/
def ChanListener.Addr (l : ChanListener) : String :=
  l.AddrVal

/-- C7 counterexample: on an open listener with an empty queue, calling
`Close()` and then `Accept()` still blocks — it does not return the
`listener closed` signal, because `Close()` never closes the channel. -/
theorem close_then_accept_still_blocks :
    ((((ChanListener.mk ":8443" [] false).Close).2.Accept).1 =
        AcceptResult.blocks) ∧
      AcceptResult.blocks ≠ AcceptResult.err "listener closed" := by
  decide

/-- C7 amended: `Close()` is a no-op returning `nil` that leaves the
listener state (channel included) untouched, so `accept()` behaves after
`Close()` exactly as before: it returns the next queued connection when one
is pending, blocks on an open empty channel, and returns the
`listener closed` signal only when the channel itself has been closed and
drained — which no code in the program ever does. -/
theorem chanListener_accept_close_semantics (l : ChanListener) :
    l.Close = (none, l) ∧
    (l.ConnChan = [] → l.chanClosed = true →
      l.Accept = (AcceptResult.err "listener closed", l)) ∧
    (l.ConnChan = [] → l.chanClosed = false →
      l.Accept = (AcceptResult.blocks, l)) ∧
    (∀ c rest, l.ConnChan = c :: rest →
      l.Accept = (AcceptResult.conn c, ⟨l.AddrVal, rest, l.chanClosed⟩)) := by
  refine ⟨rfl, ?_, ?_, ?_⟩
  · intro h1 h2
    unfold ChanListener.Accept
    rw [h1]
    simp [h2]
  · intro h1 h2
    unfold ChanListener.Accept
    rw [h1]
    simp [h2]
  · intro c rest h1
    unfold ChanListener.Accept
    rw [h1]

/-- Witness for the amended C7: a drained listener whose channel has been
closed (hypothetically) reports the closed signal. -/
theorem chanListener_accept_close_semantics_witness :
    (ChanListener.mk ":8443" [] true).Accept =
      (AcceptResult.err "listener closed", ChanListener.mk ":8443" [] true) :=
  (chanListener_accept_close_semantics ⟨":8443", [], true⟩).2.1 rfl rfl

/-! ## Dispatch loop accept-error policy (`main.go` accept loop) -/

/-- What one iteration of the accept loop does with the result of
`l.Accept()`. -/
inductive LoopAction where
  | handle (c : Nat)
  | continueLoop
  | terminate
deriving DecidableEq

/-- Model of the accept-loop body in `main`: on success spawn the
per-connection goroutine; on any error `log.Printf` and `continue`. -/
def acceptLoopStep : Except String Nat → LoopAction
  | Except.ok c => LoopAction.handle c
  | Except.error _ => LoopAction.continueLoop

/-- C8 counterexample: on the listener-closed (fatal) accept error the loop
continues instead of terminating. -/
theorem accept_loop_continues_on_fatal_error :
    acceptLoopStep (Except.error "use of closed network connection") =
        LoopAction.continueLoop ∧
      LoopAction.continueLoop ≠ LoopAction.terminate := by
  decide

/-- C8 amended: the accept loop makes no distinction among accept errors:
every error — transient or fatal/listener-closed alike — is logged and the
loop continues; the loop never terminates on an accept error, and each
successful accept spawns a handler. -/
theorem accept_loop_error_policy (e : String) (c : Nat) :
    acceptLoopStep (Except.error e) = LoopAction.continueLoop ∧
    acceptLoopStep (Except.error e) ≠ LoopAction.terminate ∧
    acceptLoopStep (Except.ok c) = LoopAction.handle c := by
  exact ⟨rfl, by simp [acceptLoopStep], rfl⟩

/-! ## Startup flag validation (`main.go`) -/

/-- The command-line configuration of `main`: `--port`, `--https`,
`--tls-cert`, `--tls-key`. -/
structure Config where
  port : Int
  enableHTTPS : Bool
  tlsCertFile : String
  tlsKeyFile : String
deriving DecidableEq

/-- How startup ends: `log.Fatal` on inconsistent flags (process exits
non-zero with no socket ever bound), or binding the single listening
socket in secure or plain mode. -/
inductive StartupResult where
  | fatalConfig
  | listenSecure (addr : String)
  | listenPlain (addr : String)
deriving DecidableEq

/-- Whether a startup outcome ever binds a listening socket. -/
def StartupResult.bindsSocket : StartupResult → Bool
  | .fatalConfig => false
  | _ => true

/-- Model of the flag validation and listen sequence of `main`: the two
`log.Fatal` consistency checks run before `net.Listen`/`r.Run`, so a fatal
configuration never reaches a bind. -/
def startup (cfg : Config) : StartupResult :=
  if !cfg.enableHTTPS && (cfg.tlsCertFile != "" || cfg.tlsKeyFile != "") then
    StartupResult.fatalConfig
  else if cfg.enableHTTPS &&
      (cfg.tlsCertFile == "" || cfg.tlsKeyFile == "") then
    StartupResult.fatalConfig
  else if cfg.enableHTTPS then
    StartupResult.listenSecure (":" ++ toString cfg.port)
  else
    StartupResult.listenPlain (":" ++ toString cfg.port)

/-- C6: every inconsistent configuration — secure mode off with a cert or
key path supplied, or secure mode on with a cert or key path missing —
makes the process exit fatally before binding, and no listening socket is
ever opened. -/
theorem startup_validation_before_bind (cfg : Config)
    (h : (cfg.enableHTTPS = false ∧
            (cfg.tlsCertFile ≠ "" ∨ cfg.tlsKeyFile ≠ "")) ∨
         (cfg.enableHTTPS = true ∧
            (cfg.tlsCertFile = "" ∨ cfg.tlsKeyFile = ""))) :
    startup cfg = StartupResult.fatalConfig ∧
      (startup cfg).bindsSocket = false := by
  have hf : startup cfg = StartupResult.fatalConfig := by
    unfold startup
    rcases h with ⟨he, hck⟩ | ⟨he, hck⟩
    · rw [if_pos]
      simp [he]
      exact hck
    · rw [if_neg, if_pos]
      · simp [he]
        exact hck
      · simp [he]
  exact ⟨hf, by rw [hf]; rfl⟩

/-- Witness for C6: `--https=false --tls-cert=cert.pem` exits fatally with
no socket bound. -/
theorem startup_validation_before_bind_witness :
    startup ⟨8080, false, "cert.pem", ""⟩ = StartupResult.fatalConfig ∧
      (startup ⟨8080, false, "cert.pem", ""⟩).bindsSocket = false :=
  startup_validation_before_bind ⟨8080, false, "cert.pem", ""⟩
    (Or.inl ⟨rfl, Or.inl (by decide)⟩)

end TobyTodo
